import Mathlib

/-!
Verification of the x402 payment-selection and payment-orchestration core of
the scaffold-x402 demo repository.

The definitions below are a shallow embedding of the TypeScript sources:

* `packages/nextjs/utils/paymentRequiredSelector/selectCheapestOption.ts`
  (`selectCheapestOption`, `selectFirstOption`),
* `packages/nextjs/utils/paymentRequiredSelector/selectForCurrentNetwork.ts`
  (`createSelectForCurrentNetwork`),
* `packages/nextjs/components/PaymentRequirementSelector.tsx`
  (`createSelectByRequirement`),
* `packages/nextjs/hooks/useX402Payment.ts` (`wagmiToClientSigner`, `pay`,
  `reset`, the default selector used by `pay`).

The stream-access page's `hasSufficientBalance` memo is not embedded: its
comparison is performed on `Number.parseFloat` double-precision values, whose
outcome on reachable inputs depends on IEEE-754 binary64 rounding (and on the
implementation latitude ECMAScript grants for string-to-number conversion),
which this embedding does not model.

JavaScript strings are Lean `String`s; absent / `undefined` string fields are
modelled by the empty string (both are falsy under `||`).  `bigint` values are
Lean `Int`.  Fallible JavaScript computations (throwing functions, rejected
promises) are modelled with `Except String`, carrying the thrown error message.
External network and wallet effects are inputs to the embedded functions.
-/

deriving instance DecidableEq for Except

namespace X402

/-- A payment requirement offered by the resource server.  The four fields
`network`, `asset`, `amount`, `payTo` are the ones compared for matching;
`scheme`, `value` (a runtime alias for the amount seen in the UI code) and
`description` are the remaining metadata carried by the record. -/
structure PaymentRequirements where
  scheme : String
  network : String
  asset : String
  amount : String
  payTo : String
  value : String
  description : String
  deriving DecidableEq, Repr, Inhabited

/-- Accumulates the value of a decimal digit string; fails at the first
non-digit character. -/
def digitsValueAux (acc : Nat) : List Char → Option Nat
  | [] => some acc
  | c :: cs =>
    if '0' ≤ c ∧ c ≤ '9' then digitsValueAux (acc * 10 + (c.toNat - '0'.toNat)) cs
    else none

/-- Value of a non-empty decimal digit string; `none` when the string is empty
or contains a non-digit. -/
def digitsValue : List Char → Option Nat
  | [] => none
  | cs => digitsValueAux 0 cs

/-- Model of the JavaScript `BigInt(string)` conversion, restricted to the
decimal forms exercised by this repository: the empty string converts to `0`,
an optional sign followed by decimal digits converts to the signed value, and
any other string fails (`BigInt` throws a `SyntaxError`).  Hexadecimal, octal
and binary literal forms and surrounding whitespace are not modelled. -/
def parseBigIntChars : List Char → Option Int
  | [] => some 0
  | '-' :: cs => (digitsValue cs).map (fun n => -(n : Int))
  | '+' :: cs => (digitsValue cs).map (fun n => (n : Int))
  | cs => (digitsValue cs).map (fun n => (n : Int))

/-- `BigInt(s)` on a Lean string: see `parseBigIntChars`. -/
def parseBigInt (s : String) : Option Int :=
  parseBigIntChars s.data

/-- The list of offered requirements handed to a selector.  `none` models a
JavaScript `null`/`undefined` argument (the selectors guard with
`!accepts || accepts.length === 0`). -/
abbrev Accepts := Option (List PaymentRequirements)

/-- Error message thrown by every selector on an empty or absent list. -/
def noOptionsMsg : String := "No payment options available"

/-- Embedding of `selectFirstOption` from `selectCheapestOption.ts`: throws on
an empty or absent list, otherwise returns `accepts[0]`. -/
def selectFirstOption (version : Nat) (accepts : Accepts) :
    Except String PaymentRequirements :=
  match accepts with
  | none => Except.error noOptionsMsg
  | some [] => Except.error noOptionsMsg
  | some (a :: _) => Except.ok a

/-- Embedding of the inline default selector of `pay` in `useX402Payment.ts`
(used when the caller supplies no selector): throws on an empty or absent
list, otherwise returns `accepts[0]`. -/
def defaultPaymentSelector (version : Nat) (accepts : Accepts) :
    Except String PaymentRequirements :=
  match accepts with
  | none => Except.error noOptionsMsg
  | some [] => Except.error noOptionsMsg
  | some (a :: _) => Except.ok a

/-- The comparator passed to `sort` by `selectCheapestOption`: converts both
amounts with `BigInt` (which may throw) and compares the resulting values,
returning negative / positive / zero as `Ordering.lt` / `Ordering.gt` /
`Ordering.eq`. -/
def compareByAmount (a b : PaymentRequirements) : Except String Ordering :=
  match parseBigInt a.amount, parseBigInt b.amount with
  | some aValue, some bValue =>
      Except.ok
        (if aValue < bValue then Ordering.lt
         else if bValue < aValue then Ordering.gt
         else Ordering.eq)
  | _, _ => Except.error "Cannot convert amount to a BigInt"

/-- One insertion step of a stable insertion sort under the fallible
comparator `compareByAmount`: the new element is placed before the first
strictly greater element, hence after all elements comparing less than or
equal to it. -/
def insertSorted (a : PaymentRequirements) :
    List PaymentRequirements → Except String (List PaymentRequirements)
  | [] => Except.ok [a]
  | b :: l => do
      let o ← compareByAmount a b
      if o = Ordering.lt then
        pure (a :: b :: l)
      else
        let l2 ← insertSorted a l
        pure (b :: l2)

/-- Model of `[...accepts].sort(comparator)`: JavaScript `Array.prototype.sort`
is required to be stable, so it is modelled as a stable insertion sort,
propagating any error thrown by the comparator.  As in the real engine, a
list of length at most one never invokes the comparator. -/
def sortByAmount (accepts : List PaymentRequirements) :
    Except String (List PaymentRequirements) :=
  accepts.foldlM (fun acc a => insertSorted a acc) []

/-- Embedding of `selectCheapestOption` from `selectCheapestOption.ts`: throws
on an empty or absent list, otherwise sorts a copy of the list by `BigInt`
amount ascending with a stable sort and returns `sorted[0]`. -/
def selectCheapestOption (version : Nat) (accepts : Accepts) :
    Except String PaymentRequirements :=
  match accepts with
  | none => Except.error noOptionsMsg
  | some [] => Except.error noOptionsMsg
  | some (a :: l) => do
      let sorted ← sortByAmount (a :: l)
      match sorted with
      | [] => Except.error noOptionsMsg
      | b :: _ => pure b

/-- Embedding of `createSelectForCurrentNetwork` from
`selectForCurrentNetwork.ts`: the returned selector throws on an empty or
absent list, otherwise returns the first entry whose `network` equals the
interpolated target string, and throws when none matches. -/
def createSelectForCurrentNetwork (chainId : Nat) (version : Nat)
    (accepts : Accepts) : Except String PaymentRequirements :=
  match accepts with
  | none => Except.error noOptionsMsg
  | some [] => Except.error noOptionsMsg
  | some (a :: l) =>
      match (a :: l).find? (fun option => option.network == "eip155:" ++ toString chainId) with
      | some selectedPaymentRequirement => Except.ok selectedPaymentRequirement
      | none =>
          Except.error
            ("No payment option available for current network (eip155:" ++
              toString chainId ++ ")")

/-- The matching predicate of `createSelectByRequirement`: key-property
equality on `network`, `asset`, `amount` and `payTo`. -/
def matchesRequirement (selectedRequirement option : PaymentRequirements) : Bool :=
  option.network == selectedRequirement.network &&
  option.asset == selectedRequirement.asset &&
  option.amount == selectedRequirement.amount &&
  option.payTo == selectedRequirement.payTo

/-- Embedding of `createSelectByRequirement` from
`PaymentRequirementSelector.tsx`: the returned selector throws on an empty or
absent list, otherwise returns the first entry matching the pinned requirement
on the four key properties, and throws when none matches. -/
def createSelectByRequirement (selectedRequirement : PaymentRequirements)
    (version : Nat) (accepts : Accepts) : Except String PaymentRequirements :=
  match accepts with
  | none => Except.error noOptionsMsg
  | some [] => Except.error noOptionsMsg
  | some (a :: l) =>
      match (a :: l).find? (fun option => matchesRequirement selectedRequirement option) with
      | some matched => Except.ok matched
      | none => Except.error "Selected payment requirement not found in available options"

/-- Payment status exposed by the `useX402Payment` hook. -/
inductive PaymentStatus where
  | idle
  | paying
  | success
  | error
  deriving DecidableEq, Repr

/-- The caller-visible state of the hook: status, last error message, last
result (the parsed response body, kept opaque as a string) and the most
recently fetched payment requirements. -/
structure HookState where
  status : PaymentStatus
  error : Option String
  result : Option String
  paymentRequirements : Option (List PaymentRequirements)
  deriving DecidableEq, Repr

/-- A wagmi `WalletClient`; only the presence of its `account` matters to the
embedded code. -/
structure WalletClient where
  account : Option String
  deriving DecidableEq, Repr

/-- The signer capability produced from a wallet client (the `signTypedData`
closure is an external effect and is not modelled). -/
structure ClientEvmSigner where
  address : String
  deriving DecidableEq, Repr

/-- Embedding of `wagmiToClientSigner` from `useX402Payment.ts`: throws when
the wallet client has no account, otherwise packages the account address as a
signer. -/
def wagmiToClientSigner (walletClient : WalletClient) :
    Except String ClientEvmSigner :=
  match walletClient.account with
  | none => Except.error "Wallet client must have an account"
  | some addr => Except.ok { address := addr }

/-- The HTTP response returned by the payment-wrapped fetch, as far as `pay`
inspects it.  A present `PAYMENT-RESPONSE` header is modelled together with
the outcome of decoding it (the external `decodePaymentResponseHeader` either
yields a decoded value or throws); `body` is the outcome of
`response.json()`. -/
structure PaymentResponse where
  paymentResponseHeader : Option (Except String String)
  body : Except String String
  ok : Bool
  statusCode : Nat
  statusText : String

/-- One observable action performed by `pay`: a state update (`setStatus`,
`setError`, `setResult`) or a lifecycle callback invocation, recorded in
program order. -/
inductive HookAction where
  | setStatus (s : PaymentStatus)
  | setErrorMsg (e : Option String)
  | setResultData (r : Option String)
  | onSuccess (data : String)
  | onError (err : String)
  | onSettled (data : Option String) (err : Option String)
  deriving DecidableEq, Repr

/-- Error message thrown by `pay` when no wallet client is available. -/
def noWalletMsg : String := "No wallet client available. Make sure wallet is connected."

/-- The message stored by the catch block of `pay`:
`err?.message || "Unknown error occurred"`. -/
def errMessage (e : String) : String :=
  if e = "" then "Unknown error occurred" else e

/-- The try block of `pay`: build the signer (which may throw), perform the
payment-wrapped fetch (`roundTrip`, covering selection, signing and the
retried request), decode a present `PAYMENT-RESPONSE` header (a decode throw
propagates), parse the body, and throw `Request failed: ...` when the final
response is not ok. -/
def payAttempt (walletClient : WalletClient)
    (roundTrip : Except String PaymentResponse) : Except String String := do
  let _ ← wagmiToClientSigner walletClient
  let response ← roundTrip
  match response.paymentResponseHeader with
  | some (Except.error e) => Except.error e
  | _ => pure ()
  let data ← response.body
  if !response.ok then
    Except.error ("Request failed: " ++ toString response.statusCode ++ " " ++
      response.statusText)
  else
    pure data

/-- Embedding of `pay` from `useX402Payment.ts`.  Inputs are the available
wallet client (if any) and the outcome of the payment-wrapped fetch; the
output is the ordered list of state updates and callback invocations `pay`
performs, together with the value it returns or the error it re-raises. -/
def pay (walletClient : Option WalletClient)
    (roundTrip : Except String PaymentResponse) :
    List HookAction × Except String String :=
  match walletClient with
  | none =>
      ([HookAction.setStatus PaymentStatus.error,
        HookAction.setErrorMsg (some noWalletMsg)],
       Except.error noWalletMsg)
  | some w =>
      match payAttempt w roundTrip with
      | Except.ok data =>
          ([HookAction.setStatus PaymentStatus.paying,
            HookAction.setErrorMsg none,
            HookAction.setResultData (some data),
            HookAction.setStatus PaymentStatus.success,
            HookAction.onSuccess data,
            HookAction.onSettled (some data) none],
           Except.ok data)
      | Except.error e =>
          ([HookAction.setStatus PaymentStatus.paying,
            HookAction.setErrorMsg none,
            HookAction.setErrorMsg (some (errMessage e)),
            HookAction.setStatus PaymentStatus.error,
            HookAction.onError e,
            HookAction.onSettled none (some e)],
           Except.error e)

/-- Effect of a single hook action on the hook state; callback invocations do
not change the state. -/
def applyAction (s : HookState) : HookAction → HookState
  | HookAction.setStatus st => { s with status := st }
  | HookAction.setErrorMsg e => { s with error := e }
  | HookAction.setResultData r => { s with result := r }
  | _ => s

/-- Effect of a sequence of hook actions on the hook state. -/
def applyActions (s : HookState) (actions : List HookAction) : HookState :=
  actions.foldl applyAction s

/-- Embedding of `reset` from `useX402Payment.ts`: sets status to idle and
clears the error and result fields. -/
def reset (s : HookState) : HookState :=
  { s with status := PaymentStatus.idle, error := none, result := none }

/-! Proof-side auxiliary definitions.  These are reformulations used to state
and prove properties of the embedded code; they are not themselves embeddings
of source functions. -/

/-- The `BigInt` value of a requirement's amount, defaulting to `0`; the
default is only ever used under a hypothesis that the amount parses. -/
def amountKey (r : PaymentRequirements) : Int :=
  (parseBigInt r.amount).getD 0

/-- Pure counterpart of `insertSorted` when every amount parses. -/
def insertSortedP (a : PaymentRequirements) :
    List PaymentRequirements → List PaymentRequirements
  | [] => [a]
  | b :: l =>
    if amountKey a < amountKey b then a :: b :: l else b :: insertSortedP a l

/-- Pure counterpart of `sortByAmount` when every amount parses. -/
def sortPure (l : List PaymentRequirements) : List PaymentRequirements :=
  l.foldl (fun acc a => insertSortedP a acc) []

/-- Left fold computing the earliest element of minimal amount: a later
element replaces the current one only when its amount is strictly smaller. -/
def runningMin (x : PaymentRequirements) (l : List PaymentRequirements) :
    PaymentRequirements :=
  l.foldl (fun m a => if amountKey a < amountKey m then a else m) x

/-! Sample concrete values used by witnesses and counterexamples. -/

/-- A wallet client with a connected account. -/
def sampleWallet : WalletClient :=
  { account := some "0x1111111111111111111111111111111111111111" }

/-- The all-idle initial hook state. -/
def initialHookState : HookState :=
  { status := PaymentStatus.idle, error := none, result := none,
    paymentRequirements := none }

/-- A payment requirement with the given amount and otherwise fixed fields. -/
def sampleReq (amount : String) : PaymentRequirements :=
  { scheme := "exact", network := "eip155:84532", asset := "0xAAA",
    amount := amount, payTo := "0xBBB", value := "", description := "" }

/-- A payment requirement with the given network and otherwise fixed fields. -/
def sampleNetReq (network : String) : PaymentRequirements :=
  { scheme := "exact", network := network, asset := "0xAAA", amount := "10000",
    payTo := "0xBBB", value := "", description := "" }

/-- A successful response whose settlement-confirmation header is present but
fails to decode. -/
def sampleBadHeaderResponse : PaymentResponse :=
  { paymentResponseHeader := some (Except.error "Failed to decode payment response header"),
    body := Except.ok "ok-body", ok := true, statusCode := 200,
    statusText := "OK" }

/-! Theorems. -/

/-- C8: `reset()`, invoked from any state, sets status to idle and clears the
error and result fields, while leaving `paymentRequirements` unchanged. -/
theorem reset_clears_state (s : HookState) :
    (reset s).status = PaymentStatus.idle ∧ (reset s).error = none ∧
    (reset s).result = none ∧
    (reset s).paymentRequirements = s.paymentRequirements :=
  ⟨rfl, rfl, rfl, rfl⟩

/-- C10: the default selector used by `pay` when no selector is supplied is
extensionally equal to `selectFirstOption`: on every version and argument it
returns the head of a non-empty list and fails with the no-options error on an
empty or absent list. -/
theorem defaultPaymentSelector_eq_selectFirstOption :
    ∀ (version : Nat) (accepts : Accepts),
      defaultPaymentSelector version accepts = selectFirstOption version accepts ∧
      (∀ (a : PaymentRequirements) (l : List PaymentRequirements),
        defaultPaymentSelector version (some (a :: l)) = Except.ok a) ∧
      defaultPaymentSelector version (some []) = Except.error noOptionsMsg ∧
      defaultPaymentSelector version none = Except.error noOptionsMsg := by
  intro version accepts
  refine ⟨?_, fun a l => rfl, rfl, rfl⟩
  match accepts with
  | none => rfl
  | some [] => rfl
  | some (a :: l) => rfl

/-- C4: `selectFirstOption` returns the head of every non-empty list, and all
four selectors fail with the no-options error on the empty list. -/
theorem selectors_head_and_empty :
    ∀ (version chainId : Nat) (pinned : PaymentRequirements),
      (∀ (a : PaymentRequirements) (l : List PaymentRequirements),
        selectFirstOption version (some (a :: l)) = Except.ok a) ∧
      selectFirstOption version (some []) = Except.error noOptionsMsg ∧
      selectCheapestOption version (some []) = Except.error noOptionsMsg ∧
      createSelectForCurrentNetwork chainId version (some []) =
        Except.error noOptionsMsg ∧
      createSelectByRequirement pinned version (some []) =
        Except.error noOptionsMsg := by
  intro version chainId pinned
  exact ⟨fun a l => rfl, rfl, rfl, rfl, rfl⟩

/-- C6: `pay` invoked with no wallet client fails with the no-wallet error and
never transitions the status to `paying`: its whole action trace is the
error-status update and the error message, so applying it to any state yields
status `error`, and no `setStatus paying` action occurs. -/
theorem pay_noWallet_never_paying :
    ∀ (roundTrip : Except String PaymentResponse) (s : HookState),
      pay none roundTrip =
        ([HookAction.setStatus PaymentStatus.error,
          HookAction.setErrorMsg (some noWalletMsg)],
         Except.error noWalletMsg) ∧
      HookAction.setStatus PaymentStatus.paying ∉ (pay none roundTrip).1 ∧
      (applyActions s (pay none roundTrip).1).status = PaymentStatus.error ∧
      (applyActions s (pay none roundTrip).1).error = some noWalletMsg := by
  intro roundTrip s
  refine ⟨rfl, ?_, rfl, rfl⟩
  have h1 : (pay none roundTrip).1 =
      [HookAction.setStatus PaymentStatus.error,
       HookAction.setErrorMsg (some noWalletMsg)] := rfl
  rw [h1]
  decide

/-- C1, counterexample: an invocation of `pay` that fails because no wallet
client is available re-raises the no-wallet failure but invokes neither the
`onError` nor the `onSettled` callback, contrary to the claim that every
failing invocation invokes both. -/
theorem pay_noWallet_skips_callbacks_cex :
    (pay none (Except.error "signing failed")).2 = Except.error noWalletMsg ∧
    HookAction.onError noWalletMsg ∉ (pay none (Except.error "signing failed")).1 ∧
    HookAction.onSettled none (some noWalletMsg) ∉
      (pay none (Except.error "signing failed")).1 :=
  ⟨rfl, by decide, by decide⟩

/-- C1, amended: a failed `pay` invocation sets status to error with the
failure message and re-raises the failure; when a wallet client is available
(selector, signing, header-decode, body-parse or response failures) it also
invokes `onError` and then `onSettled`, but the no-wallet failure re-raises
without invoking any callback. -/
theorem pay_failure_error_path :
    (∀ (roundTrip : Except String PaymentResponse) (s : HookState),
      pay none roundTrip =
        ([HookAction.setStatus PaymentStatus.error,
          HookAction.setErrorMsg (some noWalletMsg)],
         Except.error noWalletMsg) ∧
      (applyActions s (pay none roundTrip).1).status = PaymentStatus.error ∧
      (applyActions s (pay none roundTrip).1).error = some noWalletMsg) ∧
    (∀ (w : WalletClient) (roundTrip : Except String PaymentResponse)
       (e : String) (s : HookState),
      payAttempt w roundTrip = Except.error e →
      pay (some w) roundTrip =
        ([HookAction.setStatus PaymentStatus.paying,
          HookAction.setErrorMsg none,
          HookAction.setErrorMsg (some (errMessage e)),
          HookAction.setStatus PaymentStatus.error,
          HookAction.onError e,
          HookAction.onSettled none (some e)],
         Except.error e) ∧
      (applyActions s (pay (some w) roundTrip).1).status = PaymentStatus.error ∧
      (applyActions s (pay (some w) roundTrip).1).error =
        some (errMessage e)) := by
  constructor
  · intro roundTrip s
    exact ⟨rfl, rfl, rfl⟩
  · intro w roundTrip e s h
    have hp : pay (some w) roundTrip =
        ([HookAction.setStatus PaymentStatus.paying,
          HookAction.setErrorMsg none,
          HookAction.setErrorMsg (some (errMessage e)),
          HookAction.setStatus PaymentStatus.error,
          HookAction.onError e,
          HookAction.onSettled none (some e)],
         Except.error e) := by
      simp only [pay]
      rw [h]
    rw [hp]
    exact ⟨rfl, rfl, rfl⟩

/-- C1, witness: the amended failure path evaluated on a concrete signing
failure. -/
theorem pay_failure_error_path_witness :
    payAttempt sampleWallet (Except.error "boom") = Except.error "boom" ∧
    (pay (some sampleWallet) (Except.error "boom") =
        ([HookAction.setStatus PaymentStatus.paying,
          HookAction.setErrorMsg none,
          HookAction.setErrorMsg (some (errMessage "boom")),
          HookAction.setStatus PaymentStatus.error,
          HookAction.onError "boom",
          HookAction.onSettled none (some "boom")],
         Except.error "boom") ∧
      (applyActions initialHookState
        (pay (some sampleWallet) (Except.error "boom")).1).status =
          PaymentStatus.error ∧
      (applyActions initialHookState
        (pay (some sampleWallet) (Except.error "boom")).1).error =
          some (errMessage "boom")) :=
  ⟨rfl, pay_failure_error_path.2 sampleWallet (Except.error "boom") "boom"
    initialHookState rfl⟩

/-- C2, counterexample: a successful response whose settlement-confirmation
header is present but fails to decode does not complete with status success;
the decode failure is re-raised through the ordinary error path, and the
attempt ends in status `error`. -/
theorem pay_decode_failure_fatal_cex :
    (pay (some sampleWallet) (Except.ok sampleBadHeaderResponse)).2 =
      Except.error "Failed to decode payment response header" ∧
    HookAction.setStatus PaymentStatus.success ∉
      (pay (some sampleWallet) (Except.ok sampleBadHeaderResponse)).1 ∧
    HookAction.onSuccess "ok-body" ∉
      (pay (some sampleWallet) (Except.ok sampleBadHeaderResponse)).1 ∧
    (applyActions initialHookState
      (pay (some sampleWallet) (Except.ok sampleBadHeaderResponse)).1).status =
        PaymentStatus.error :=
  ⟨rfl, by decide, by decide, rfl⟩

/-- C2, amended: on a successful response, absence of the settlement
confirmation header (or a header that decodes successfully) is non-fatal and
the attempt completes with status success and the parsed body as result; a
decode failure of a present header, however, aborts the attempt through the
ordinary error path. -/
theorem pay_settlement_header_handling :
    ∀ (w : WalletClient) (addr : String)
      (hdr : Option (Except String String)) (d : String) (code : Nat)
      (text : String),
      w.account = some addr →
      ((hdr = none →
          pay (some w) (Except.ok ⟨hdr, Except.ok d, true, code, text⟩) =
            ([HookAction.setStatus PaymentStatus.paying,
              HookAction.setErrorMsg none,
              HookAction.setResultData (some d),
              HookAction.setStatus PaymentStatus.success,
              HookAction.onSuccess d,
              HookAction.onSettled (some d) none],
             Except.ok d)) ∧
       (∀ x, hdr = some (Except.ok x) →
          pay (some w) (Except.ok ⟨hdr, Except.ok d, true, code, text⟩) =
            ([HookAction.setStatus PaymentStatus.paying,
              HookAction.setErrorMsg none,
              HookAction.setResultData (some d),
              HookAction.setStatus PaymentStatus.success,
              HookAction.onSuccess d,
              HookAction.onSettled (some d) none],
             Except.ok d)) ∧
       (∀ e, hdr = some (Except.error e) →
          pay (some w) (Except.ok ⟨hdr, Except.ok d, true, code, text⟩) =
            ([HookAction.setStatus PaymentStatus.paying,
              HookAction.setErrorMsg none,
              HookAction.setErrorMsg (some (errMessage e)),
              HookAction.setStatus PaymentStatus.error,
              HookAction.onError e,
              HookAction.onSettled none (some e)],
             Except.error e))) := by
  intro w addr hdr d code text hacc
  rcases w with ⟨acc⟩
  have hacc' : acc = some addr := hacc
  subst hacc'
  refine ⟨?_, ?_, ?_⟩
  · intro h; subst h; rfl
  · intro x h; subst h; rfl
  · intro e h; subst h; rfl

/-- C2, witness: the amended settlement-header handling evaluated on a
concrete successful response with no settlement header. -/
theorem pay_settlement_header_handling_witness :
    pay (some sampleWallet)
        (Except.ok ⟨none, Except.ok "ok-body", true, 200, "OK"⟩) =
      ([HookAction.setStatus PaymentStatus.paying,
        HookAction.setErrorMsg none,
        HookAction.setResultData (some "ok-body"),
        HookAction.setStatus PaymentStatus.success,
        HookAction.onSuccess "ok-body",
        HookAction.onSettled (some "ok-body") none],
       Except.ok "ok-body") :=
  ((pay_settlement_header_handling sampleWallet
      "0x1111111111111111111111111111111111111111" none "ok-body" 200 "OK"
      rfl).1) rfl

/-- Generic helper: `find?` over a list split as `l₁ ++ r :: l₂` returns `r`
when every element of `l₁` fails the predicate and `r` satisfies it. -/
theorem find?_append_first {α : Type} (p : α → Bool) (l₁ l₂ : List α) (r : α)
    (h₁ : ∀ s ∈ l₁, p s = false) (hr : p r = true) :
    (l₁ ++ r :: l₂).find? p = some r := by
  induction l₁ with
  | nil => simpa using List.find?_cons_of_pos l₂ hr
  | cons a t ih =>
      have ha : ¬ p a = true := by simp [h₁ a (List.mem_cons_self a t)]
      rw [List.cons_append, List.find?_cons_of_neg _ ha]
      exact ih fun s hs => h₁ s (List.mem_cons_of_mem a hs)

/-- C7: over a non-empty list, the by-network selector returns the first
element whose network equals the target string `eip155:<chainId>`, and fails
with the no-match error when no element's network equals the target. -/
theorem selectForCurrentNetwork_first_match :
    ∀ (chainId version : Nat),
      (∀ (l₁ l₂ : List PaymentRequirements) (r : PaymentRequirements),
        (∀ s ∈ l₁, s.network ≠ "eip155:" ++ toString chainId) →
        r.network = "eip155:" ++ toString chainId →
        createSelectForCurrentNetwork chainId version (some (l₁ ++ r :: l₂)) =
          Except.ok r) ∧
      (∀ (a : PaymentRequirements) (l : List PaymentRequirements),
        (∀ s ∈ a :: l, s.network ≠ "eip155:" ++ toString chainId) →
        createSelectForCurrentNetwork chainId version (some (a :: l)) =
          Except.error
            ("No payment option available for current network (eip155:" ++
              toString chainId ++ ")")) := by
  intro chainId version
  constructor
  · intro l₁ l₂ r h₁ hr
    have hfind : (l₁ ++ r :: l₂).find?
        (fun option => option.network == "eip155:" ++ toString chainId) =
          some r :=
      find?_append_first _ _ _ _ (fun s hs => by simp [h₁ s hs]) (by simp [hr])
    cases l₁ with
    | nil =>
        simp only [List.nil_append] at hfind ⊢
        simp only [createSelectForCurrentNetwork]
        rw [hfind]
    | cons a t =>
        simp only [List.cons_append] at hfind ⊢
        simp only [createSelectForCurrentNetwork]
        rw [hfind]
  · intro a l hall
    have hfind : (a :: l).find?
        (fun option => option.network == "eip155:" ++ toString chainId) =
          none := by
      rw [List.find?_eq_none]
      intro x hx
      simp [hall x hx]
    simp only [createSelectForCurrentNetwork]
    rw [hfind]

/-- C7, witness: the by-network selector for chain 10 over the two-element
list with networks `eip155:1` and `eip155:10` returns the second element. -/
theorem selectForCurrentNetwork_first_match_witness :
    createSelectForCurrentNetwork 10 1
        (some [sampleNetReq "eip155:1", sampleNetReq "eip155:10"]) =
      Except.ok (sampleNetReq "eip155:10") := by
  have h := (selectForCurrentNetwork_first_match 10 1).1
    [sampleNetReq "eip155:1"] [] (sampleNetReq "eip155:10")
    (by decide) (by decide)
  simpa using h

/-- C5: over a non-empty list, the by-exact-requirement selector returns the
first element agreeing with the pinned requirement on network, asset, amount
and payTo — even if other fields differ — and fails with the no-match error
when no element agrees on that tuple. -/
theorem selectByRequirement_first_match :
    ∀ (pinned : PaymentRequirements) (version : Nat),
      (∀ (l₁ l₂ : List PaymentRequirements) (r : PaymentRequirements),
        (∀ s ∈ l₁, matchesRequirement pinned s = false) →
        r.network = pinned.network → r.asset = pinned.asset →
        r.amount = pinned.amount → r.payTo = pinned.payTo →
        createSelectByRequirement pinned version (some (l₁ ++ r :: l₂)) =
          Except.ok r) ∧
      (∀ (a : PaymentRequirements) (l : List PaymentRequirements),
        (∀ s ∈ a :: l, matchesRequirement pinned s = false) →
        createSelectByRequirement pinned version (some (a :: l)) =
          Except.error
            "Selected payment requirement not found in available options") := by
  intro pinned version
  constructor
  · intro l₁ l₂ r h₁ hn ha ham hp
    have hfind : (l₁ ++ r :: l₂).find?
        (fun option => matchesRequirement pinned option) = some r :=
      find?_append_first _ _ _ _ (fun s hs => h₁ s hs)
        (by simp [matchesRequirement, hn, ha, ham, hp])
    cases l₁ with
    | nil =>
        simp only [List.nil_append] at hfind ⊢
        simp only [createSelectByRequirement]
        rw [hfind]
    | cons a t =>
        simp only [List.cons_append] at hfind ⊢
        simp only [createSelectByRequirement]
        rw [hfind]
  · intro a l hall
    have hfind : (a :: l).find?
        (fun option => matchesRequirement pinned option) = none := by
      rw [List.find?_eq_none]
      intro x hx
      simp [hall x hx]
    simp only [createSelectByRequirement]
    rw [hfind]

/-- C5, witness: a pinned requirement is matched by an offered element that
agrees on the four key fields but has a different description. -/
theorem selectByRequirement_first_match_witness :
    createSelectByRequirement
        { sampleReq "5" with description := "pinned copy" } 1
        (some [{ sampleReq "5" with description := "server copy" }]) =
      Except.ok { sampleReq "5" with description := "server copy" } := by
  have h := (selectByRequirement_first_match
      { sampleReq "5" with description := "pinned copy" } 1).1
    [] [] { sampleReq "5" with description := "server copy" }
    (by decide) rfl rfl rfl rfl
  simpa using h

/-- Membership in an insertion step: the inserted list holds exactly the new
element and the old ones. -/
theorem mem_insertSortedP (a x : PaymentRequirements)
    (l : List PaymentRequirements) :
    x ∈ insertSortedP a l ↔ x = a ∨ x ∈ l := by
  induction l with
  | nil => simp [insertSortedP]
  | cons b t ih =>
      simp only [insertSortedP]
      split <;> (simp [List.mem_cons, ih]; try tauto)

/-- When the inserted element and all list elements have parseable amounts,
the fallible insertion step agrees with its pure counterpart. -/
theorem insertSorted_eq_pure (a : PaymentRequirements)
    (l : List PaymentRequirements) (ha : (parseBigInt a.amount).isSome)
    (hl : ∀ r ∈ l, (parseBigInt r.amount).isSome) :
    insertSorted a l = Except.ok (insertSortedP a l) := by
  induction l with
  | nil => rfl
  | cons b t ih =>
      obtain ⟨x, hx⟩ := Option.isSome_iff_exists.mp ha
      obtain ⟨y, hy⟩ := Option.isSome_iff_exists.mp (hl b (List.mem_cons_self b t))
      have hka : amountKey a = x := by simp [amountKey, hx]
      have hkb : amountKey b = y := by simp [amountKey, hy]
      have hc : compareByAmount a b = Except.ok
          (if x < y then Ordering.lt
           else if y < x then Ordering.gt else Ordering.eq) := by
        simp [compareByAmount, hx, hy]
      have hi : insertSorted a t = Except.ok (insertSortedP a t) :=
        ih fun r hr => hl r (List.mem_cons_of_mem b hr)
      simp only [insertSorted, insertSortedP, hc, hka, hkb]
      by_cases hxy : x < y
      · simp only [if_pos hxy]
        rfl
      · by_cases hyx : y < x
        · simp only [if_neg hxy, if_pos hyx, hi]
          rfl
        · simp only [if_neg hxy, if_neg hyx, hi]
          rfl

/-- When every amount in the list and accumulator parses, the fallible fold of
insertion steps agrees with the pure fold. -/
theorem foldlM_insertSorted_eq (l : List PaymentRequirements) :
    ∀ (acc : List PaymentRequirements),
      (∀ r ∈ l, (parseBigInt r.amount).isSome) →
      (∀ r ∈ acc, (parseBigInt r.amount).isSome) →
      List.foldlM (fun acc a => insertSorted a acc) acc l =
        Except.ok (List.foldl (fun acc a => insertSortedP a acc) acc l) := by
  induction l with
  | nil => intro acc _ _; rfl
  | cons a t ih =>
      intro acc hl hacc
      rw [List.foldlM_cons,
        insertSorted_eq_pure a acc (hl a (List.mem_cons_self a t)) hacc]
      show List.foldlM (fun acc a => insertSorted a acc) (insertSortedP a acc) t = _
      rw [List.foldl_cons]
      exact ih (insertSortedP a acc)
        (fun r hr => hl r (List.mem_cons_of_mem a hr))
        (fun r hr => by
          rcases (mem_insertSortedP a r acc).mp hr with h | h
          · subst h; exact hl r (List.mem_cons_self r t)
          · exact hacc r h)

/-- When every amount parses, the embedded sort agrees with the pure stable
insertion sort. -/
theorem sortByAmount_eq_pure (l : List PaymentRequirements)
    (hl : ∀ r ∈ l, (parseBigInt r.amount).isSome) :
    sortByAmount l = Except.ok (sortPure l) :=
  foldlM_insertSorted_eq l [] hl (by simp)

/-- An insertion step never yields the empty list. -/
theorem insertSortedP_ne_nil (a : PaymentRequirements)
    (l : List PaymentRequirements) : insertSortedP a l ≠ [] := by
  cases l with
  | nil => simp [insertSortedP]
  | cons b t =>
      simp only [insertSortedP]
      split <;> simp

/-- Folding insertion steps over a non-empty accumulator never yields the
empty list. -/
theorem foldl_insertSortedP_ne_nil (l : List PaymentRequirements) :
    ∀ (acc : List PaymentRequirements), acc ≠ [] →
      List.foldl (fun acc a => insertSortedP a acc) acc l ≠ [] := by
  induction l with
  | nil => intro acc h; exact h
  | cons a t ih =>
      intro acc _
      rw [List.foldl_cons]
      exact ih _ (insertSortedP_ne_nil a acc)

/-- Unfolding `runningMin` on a cons cell. -/
theorem runningMin_cons (x a : PaymentRequirements)
    (t : List PaymentRequirements) :
    runningMin x (a :: t) =
      runningMin (if amountKey a < amountKey x then a else x) t := rfl

/-- The head of the fold of insertion steps over a non-empty accumulator is
the running minimum seeded with the accumulator's head: a later element takes
the head only when its amount is strictly smaller. -/
theorem headD_foldl_insertSortedP (l : List PaymentRequirements) :
    ∀ (b d : PaymentRequirements) (t : List PaymentRequirements),
      (List.foldl (fun acc a => insertSortedP a acc) (b :: t) l).headD d =
        runningMin b l := by
  induction l with
  | nil => intro b d t; simp [runningMin]
  | cons a l ih =>
      intro b d t
      rw [List.foldl_cons, runningMin_cons]
      by_cases h : amountKey a < amountKey b
      · rw [show insertSortedP a (b :: t) = a :: b :: t by
          simp [insertSortedP, h]]
        rw [ih a d (b :: t), if_pos h]
      · rw [show insertSortedP a (b :: t) = b :: insertSortedP a t by
          simp [insertSortedP, h]]
        rw [ih b d (insertSortedP a t), if_neg h]

/-- The running minimum is an element of the seeded list. -/
theorem runningMin_mem (l : List PaymentRequirements) :
    ∀ (x : PaymentRequirements), runningMin x l ∈ x :: l := by
  induction l with
  | nil => intro x; simp [runningMin]
  | cons a t ih =>
      intro x
      rw [runningMin_cons]
      by_cases h : amountKey a < amountKey x
      · rw [if_pos h]
        exact List.mem_cons_of_mem x (ih a)
      · rw [if_neg h]
        rcases List.mem_cons.mp (ih x) with hx | hx
        · rw [hx]; exact List.mem_cons_self x (a :: t)
        · exact List.mem_cons_of_mem x (List.mem_cons_of_mem a hx)

/-- The running minimum has an amount less than or equal to every element of
the seeded list. -/
theorem runningMin_le (l : List PaymentRequirements) :
    ∀ (x s : PaymentRequirements), s ∈ x :: l →
      amountKey (runningMin x l) ≤ amountKey s := by
  induction l with
  | nil =>
      intro x s hs
      rw [List.mem_singleton] at hs
      rw [hs]
      exact le_refl _
  | cons a t ih =>
      intro x s hs
      rw [runningMin_cons]
      by_cases h : amountKey a < amountKey x
      · rw [if_pos h]
        rcases List.mem_cons.mp hs with rfl | hs
        · exact le_trans (ih a a (List.mem_cons_self a t)) (le_of_lt h)
        · exact ih a s hs
      · rw [if_neg h]
        rcases List.mem_cons.mp hs with rfl | hs
        · exact ih _ _ (List.mem_cons_self _ t)
        · rcases List.mem_cons.mp hs with rfl | hs
          · exact le_trans (ih x x (List.mem_cons_self x t)) (not_lt.mp h)
          · exact ih x s (List.mem_cons_of_mem x hs)

/-- The running minimum is the earliest element of minimal amount: the seeded
list splits around it with every earlier element strictly more expensive. -/
theorem runningMin_earliest (l : List PaymentRequirements) :
    ∀ (x : PaymentRequirements),
      ∃ (l₁ l₂ : List PaymentRequirements),
        x :: l = l₁ ++ runningMin x l :: l₂ ∧
        ∀ s ∈ l₁, amountKey (runningMin x l) < amountKey s := by
  induction l with
  | nil => intro x; exact ⟨[], [], rfl, by simp⟩
  | cons a t ih =>
      intro x
      rw [runningMin_cons]
      by_cases h : amountKey a < amountKey x
      · rw [if_pos h]
        obtain ⟨m₁, m₂, hm, hlt⟩ := ih a
        refine ⟨x :: m₁, m₂, ?_, ?_⟩
        · rw [List.cons_append]
          exact congrArg (x :: ·) hm
        · intro s hs
          rcases List.mem_cons.mp hs with rfl | hs
          · exact lt_of_le_of_lt
              (runningMin_le t a a (List.mem_cons_self a t)) h
          · exact hlt s hs
      · rw [if_neg h]
        obtain ⟨m₁, m₂, hm, hlt⟩ := ih x
        cases m₁ with
        | nil =>
            have hx : runningMin x t = x := by
              rw [List.nil_append] at hm
              exact ((List.cons_eq_cons.mp hm).1).symm
            refine ⟨[], a :: t, ?_, by simp⟩
            rw [List.nil_append, hx]
        | cons b m₁' =>
            rw [List.cons_append] at hm
            have hb : x = b := (List.cons_eq_cons.mp hm).1
            have ht : t = m₁' ++ runningMin x t :: m₂ :=
              (List.cons_eq_cons.mp hm).2
            have hltx : amountKey (runningMin x t) < amountKey x := by
              have hxb : amountKey x = amountKey b := congrArg amountKey hb
              rw [hxb]
              exact hlt b (List.mem_cons_self b m₁')
            refine ⟨x :: a :: m₁', m₂, ?_, ?_⟩
            · rw [List.cons_append, List.cons_append]
              exact congrArg (x :: ·) (congrArg (a :: ·) ht)
            · intro s hs
              rcases List.mem_cons.mp hs with rfl | hs
              · exact hltx
              · rcases List.mem_cons.mp hs with rfl | hs
                · exact lt_of_lt_of_le hltx (not_lt.mp h)
                · exact hlt s (List.mem_cons_of_mem b hs)

/-- C3: for every non-empty list whose amounts all parse as big integers, the
cheapest selector returns an element of the list whose amount is minimal
under integer comparison, and the list splits around the returned element
with every earlier element strictly more expensive (earliest minimum). -/
theorem selectCheapestOption_earliest_min :
    ∀ (version : Nat) (a : PaymentRequirements)
      (l : List PaymentRequirements),
      (∀ r ∈ a :: l, (parseBigInt r.amount).isSome) →
      ∃ (r : PaymentRequirements) (l₁ l₂ : List PaymentRequirements),
        selectCheapestOption version (some (a :: l)) = Except.ok r ∧
        a :: l = l₁ ++ r :: l₂ ∧
        (∀ s ∈ a :: l, amountKey r ≤ amountKey s) ∧
        (∀ s ∈ l₁, amountKey r < amountKey s) := by
  intro version a l hp
  have hsort : sortByAmount (a :: l) = Except.ok (sortPure (a :: l)) :=
    sortByAmount_eq_pure _ hp
  have hform : sortPure (a :: l) =
      List.foldl (fun acc x => insertSortedP x acc) [a] l := rfl
  have hne : sortPure (a :: l) ≠ [] := by
    rw [hform]
    exact foldl_insertSortedP_ne_nil l [a] (by simp)
  obtain ⟨b, t, hbt⟩ := List.exists_cons_of_ne_nil hne
  have hb : b = runningMin a l := by
    have h1 : (sortPure (a :: l)).headD a = runningMin a l := by
      rw [hform]
      exact headD_foldl_insertSortedP l a a []
    rw [hbt] at h1
    simpa using h1
  subst hb
  have hsel : selectCheapestOption version (some (a :: l)) =
      Except.ok (runningMin a l) := by
    simp only [selectCheapestOption]
    rw [hsort]
    show (match sortPure (a :: l) with
      | [] => Except.error noOptionsMsg
      | b :: _ => pure b) = Except.ok (runningMin a l)
    rw [hbt]
    rfl
  obtain ⟨m₁, m₂, hm, hlt⟩ := runningMin_earliest l a
  exact ⟨runningMin a l, m₁, m₂, hsel, hm,
    fun s hs => runningMin_le l a s hs, hlt⟩

/-- C3, witness: over amounts 100, 50, 75 the cheapest selector returns the
50 element, the unique minimum. -/
theorem selectCheapestOption_earliest_min_witness :
    ∃ (r : PaymentRequirements) (l₁ l₂ : List PaymentRequirements),
      selectCheapestOption 1
          (some [sampleReq "100", sampleReq "50", sampleReq "75"]) =
        Except.ok r ∧
      [sampleReq "100", sampleReq "50", sampleReq "75"] = l₁ ++ r :: l₂ ∧
      (∀ s ∈ [sampleReq "100", sampleReq "50", sampleReq "75"],
        amountKey r ≤ amountKey s) ∧
      (∀ s ∈ l₁, amountKey r < amountKey s) :=
  selectCheapestOption_earliest_min 1 (sampleReq "100")
    [sampleReq "50", sampleReq "75"] (by decide)

end X402
